import Mathlib

/-!
Verification of the session-store subsystem of the `ferreiro` repository
(`ferreiro_adapters_session`): the `SessionData` container (`src/lib.rs`),
the stateless signed-cookie store (`src/cookie.rs`) and the in-memory
store (`src/memory.rs`).

Modelling conventions:
* Byte strings (`Vec<u8>`, `&[u8]`, `String` contents) are `List Nat`
  with values below 256.
* `serde_json::Value` is the inductive `Value` (numbers restricted to the
  integer fragment; IEEE-754 float formatting is outside the shallow
  embedding and no claim depends on it).
* The external crates `serde_json` (as a whole-document codec) and
  `hmac`/`sha2` are abstract function parameters: `ser`/`parse` for
  `serde_json::to_vec`/`from_slice` over `SessionData`, and
  `mac : key → message → tag` for HMAC-SHA256.  Facts about them that a
  claim assumes (tag length, tag distinctness) appear as hypotheses.
* A concrete model of `serde_json` serialization for `SessionData`
  (`sessionDataJson`) is given for claims about the byte content of
  tokens; the association-list order models the `HashMap` iteration
  order of the moment of serialization.
* The `base64` crate's `general_purpose::STANDARD` engine (standard
  alphabet, canonical padding) is modelled concretely by
  `base64Encode` / `base64Decode`.
-/

/-- JSON values (`serde_json::Value`), with numbers restricted to the
integer fragment. -/
inductive Value where
  | null : Value
  | bool : Bool → Value
  | num : Int → Value
  | str : String → Value
  | arr : List Value → Value
  | obj : List (String × Value) → Value

/-- The `SessionData` struct of `ferreiro_adapters_session/src/lib.rs`:
a map from string keys to JSON values plus a `modified` flag.  The
`HashMap` is modelled as an association list without duplicate keys;
the list order stands for the map's iteration order. -/
structure SessionData where
  data : List (String × Value)
  modified : Bool

/-- The `Default`/`SessionData::new` value: empty map, `modified = false`. -/
def SessionData.new : SessionData := ⟨[], false⟩

/-- Association-list lookup, modelling `HashMap::get`. -/
def assocLookup (k : String) : List (String × Value) → Option Value
  | [] => none
  | (k', v) :: rest => if k' = k then some v else assocLookup k rest

/-- Association-list insert, modelling `HashMap::insert` (overwrites the
existing entry for the key, otherwise appends). -/
def assocInsert (k : String) (v : Value) : List (String × Value) → List (String × Value)
  | [] => [(k, v)]
  | (k', v') :: rest => if k' = k then (k, v) :: rest else (k', v') :: assocInsert k v rest

/-- Association-list removal, modelling `HashMap::remove`. -/
def assocRemove (k : String) : List (String × Value) → List (String × Value)
  | [] => []
  | (k', v') :: rest => if k' = k then rest else (k', v') :: assocRemove k rest

/-- `SessionData::get::<T>`: look the key up and decode with the
caller-supplied target type's decoder (`serde_json::from_value ∘ .ok()`,
modelled by `fromValue : Value → Option T`). -/
def SessionData.get {T : Type} (sd : SessionData) (fromValue : Value → Option T)
    (key : String) : Option T :=
  (assocLookup key sd.data).bind fun v => fromValue v

/-- `SessionData::set::<T>`: serialize the value with the caller-supplied
serializer (`serde_json::to_value`, modelled by `toValue : T → Option Value`,
`none` standing for `Err`); on success insert and raise `modified`; on
failure the whole call is a no-op. -/
def SessionData.set {T : Type} (sd : SessionData) (toValue : T → Option Value)
    (key : String) (value : T) : SessionData :=
  match toValue value with
  | some v => { data := assocInsert key v sd.data, modified := true }
  | none => sd

/-- `SessionData::remove`: drop the key and raise `modified` unconditionally. -/
def SessionData.remove (sd : SessionData) (key : String) : SessionData :=
  { data := assocRemove key sd.data, modified := true }

/-- `SessionData::clear`: empty the map and raise `modified` unconditionally. -/
def SessionData.clear (sd : SessionData) : SessionData :=
  { sd with data := [], modified := true }

/-- The `SessionError` enum of `ferreiro_adapters_session/src/lib.rs`. -/
inductive SessionError where
  | Serialization : String → SessionError
  | Storage : String → SessionError
  | Expired : SessionError
  | Invalid : SessionError
deriving DecidableEq

/-! Standard base64 (the crate's `general_purpose::STANDARD` engine:
standard alphabet `A-Z a-z 0-9 + /`, `=` padding, canonical decoding). -/

/-- The standard base64 alphabet: 6-bit group to ASCII code. -/
def b64Char (n : Nat) : Nat :=
  if n < 26 then 65 + n
  else if n < 52 then 97 + (n - 26)
  else if n < 62 then 48 + (n - 52)
  else if n = 62 then 43
  else 47

/-- Inverse of the alphabet: ASCII code to 6-bit group, `none` off-alphabet. -/
def b64Val (c : Nat) : Option Nat :=
  if 65 ≤ c ∧ c ≤ 90 then some (c - 65)
  else if 97 ≤ c ∧ c ≤ 122 then some (c - 97 + 26)
  else if 48 ≤ c ∧ c ≤ 57 then some (c - 48 + 52)
  else if c = 43 then some 62
  else if c = 47 then some 63
  else none

/-- Standard base64 encoding with padding (`BASE64.encode`), bytes in,
ASCII codes out. -/
def base64Encode : List Nat → List Nat
  | [] => []
  | [b0] => [b64Char (b0 / 4), b64Char (b0 % 4 * 16), 61, 61]
  | [b0, b1] => [b64Char (b0 / 4), b64Char (b0 % 4 * 16 + b1 / 16), b64Char (b1 % 16 * 4), 61]
  | b0 :: b1 :: b2 :: rest =>
      b64Char (b0 / 4) :: b64Char (b0 % 4 * 16 + b1 / 16) ::
        b64Char (b1 % 16 * 4 + b2 / 64) :: b64Char (b2 % 64) :: base64Encode rest

/-- Standard base64 decoding (`BASE64.decode`): canonical padding
required, off-alphabet bytes and non-zero trailing bits rejected. -/
def base64Decode : List Nat → Option (List Nat)
  | [] => some []
  | c0 :: c1 :: c2 :: c3 :: rest =>
      if c2 = 61 ∧ c3 = 61 ∧ rest = [] then
        match b64Val c0, b64Val c1 with
        | some v0, some v1 => if v1 % 16 = 0 then some [v0 * 4 + v1 / 16] else none
        | _, _ => none
      else if c3 = 61 ∧ rest = [] then
        match b64Val c0, b64Val c1, b64Val c2 with
        | some v0, some v1, some v2 =>
            if v2 % 4 = 0 then some [v0 * 4 + v1 / 16, v1 % 16 * 16 + v2 / 4] else none
        | _, _, _ => none
      else
        match b64Val c0, b64Val c1, b64Val c2, b64Val c3, base64Decode rest with
        | some v0, some v1, some v2, some v3, some bytes =>
            some ((v0 * 4 + v1 / 16) :: (v1 % 16 * 16 + v2 / 4) :: (v2 % 4 * 64 + v3) :: bytes)
        | _, _, _, _, _ => none
  | _ => none

/-- Rust `str::split('.')` at the byte level (`.` = 46; 46 cannot occur
inside a multi-byte UTF-8 sequence, so byte-level splitting agrees with
the char-level split of the source). -/
def splitOnDot : List Nat → List (List Nat)
  | [] => [[]]
  | b :: rest =>
      if b = 46 then [] :: splitOnDot rest
      else
        match splitOnDot rest with
        | [] => [[b]]
        | p :: ps => (b :: p) :: ps

/-! The stateless signed-cookie store (`cookie.rs`).  `mac` is the
abstract HMAC-SHA256, `key` the store's `secret_key`. -/

/-- `CookieSessionStore::sign`: MAC the input bytes, base64 the tag. -/
def sign (mac : List Nat → List Nat → List Nat) (key : List Nat) (data : List Nat) : List Nat :=
  base64Encode (mac key data)

/-- `CookieSessionStore::verify`: recompute the signature and compare. -/
def cookieVerify (mac : List Nat → List Nat → List Nat) (key : List Nat)
    (data : List Nat) (signature : List Nat) : Bool :=
  sign mac key data == signature

/-- Placeholder for `base64::DecodeError::to_string()` (no claim depends
on the message text). -/
def base64DecodeErr : String := "base64 decode error"

/-- `CookieSessionStore::save`: serialize, base64, sign the base64 text,
return `dataPart ++ "." ++ sigPart`.  The `id` argument is accepted and
ignored, as in the source (`_id`). -/
def cookieSave (mac : List Nat → List Nat → List Nat) (key : List Nat)
    (ser : SessionData → Except String (List Nat))
    (_id : Option (List Nat)) (data : SessionData) : Except SessionError (List Nat) :=
  match ser data with
  | .error e => .error (.Serialization e)
  | .ok json =>
      let dataB64 := base64Encode json
      let signature := sign mac key dataB64
      .ok (dataB64 ++ 46 :: signature)

/-- `CookieSessionStore::load`: split on `.`, demand exactly two parts,
verify the signature over the first part's bytes, then base64-decode and
deserialize. -/
def cookieLoad (mac : List Nat → List Nat → List Nat) (key : List Nat)
    (parse : List Nat → Except String SessionData)
    (id : List Nat) : Except SessionError (Option SessionData) :=
  match splitOnDot id with
  | [dataB64, signature] =>
      if cookieVerify mac key dataB64 signature then
        match base64Decode dataB64 with
        | none => .error (.Serialization base64DecodeErr)
        | some bytes =>
            match parse bytes with
            | .error e => .error (.Serialization e)
            | .ok sessionData => .ok (some sessionData)
      else .error .Invalid
  | _ => .error .Invalid

/-! The in-memory store (`memory.rs`).  The `HashMap<SessionId,
SessionData>` behind the lock is an association list; the random
`generate_id` is modelled by an explicit `genId` argument. -/

/-- Session-id keyed association-list lookup. -/
def memAssocLookup (k : List Nat) : List (List Nat × SessionData) → Option SessionData
  | [] => none
  | (k', v) :: rest => if k' = k then some v else memAssocLookup k rest

/-- Session-id keyed association-list insert (overwrite semantics of
`HashMap::insert`). -/
def memAssocInsert (k : List Nat) (v : SessionData) :
    List (List Nat × SessionData) → List (List Nat × SessionData)
  | [] => [(k, v)]
  | (k', v') :: rest => if k' = k then (k, v) :: rest else (k', v') :: memAssocInsert k v rest

/-- `MemorySessionStore::load`: plain map lookup, always `Ok`. -/
def memLoad (store : List (List Nat × SessionData)) (id : List Nat) :
    Except SessionError (Option SessionData) :=
  .ok (memAssocLookup id store)

/-- `MemorySessionStore::save`: use the given id, or the freshly
generated one when `None`; insert unconditionally; return the new store
and the id. -/
def memSave (store : List (List Nat × SessionData)) (id : Option (List Nat))
    (genId : List Nat) (data : SessionData) : List (List Nat × SessionData) × List Nat :=
  let sessionId := match id with | some s => s | none => genId
  (memAssocInsert sessionId data store, sessionId)

/-! Concrete model of `serde_json` compact serialization for
`SessionData` (what `serde_json::to_vec(data)` produces, with the
association list giving the `HashMap` iteration order): struct fields in
declaration order, map entries in iteration order, strings escaped as
serde_json does (`\"`, `\\`, the short control escapes, `\u00XX`
lowercase hex for other control characters), UTF-8 bytes passed through. -/

/-- Lowercase hexadecimal digit, as in serde_json's escape table. -/
def hexDigitLower (d : Nat) : Nat := if d < 10 then 48 + d else 87 + d

/-- Per-byte JSON string escaping (escaping only touches ASCII bytes, so
byte-level and char-level escaping agree). -/
def escByte (b : Nat) : List Nat :=
  if b = 34 then [92, 34]
  else if b = 92 then [92, 92]
  else if b = 8 then [92, 98]
  else if b = 9 then [92, 116]
  else if b = 10 then [92, 110]
  else if b = 12 then [92, 102]
  else if b = 13 then [92, 114]
  else if b < 32 then [92, 117, 48, 48, hexDigitLower (b / 16), hexDigitLower (b % 16)]
  else [b]

/-- UTF-8 encoding of a code point. -/
def utf8EncodeCp (c : Nat) : List Nat :=
  if c < 128 then [c]
  else if c < 2048 then [192 + c / 64, 128 + c % 64]
  else if c < 65536 then [224 + c / 4096, 128 + c / 64 % 64, 128 + c % 64]
  else [240 + c / 262144, 128 + c / 4096 % 64, 128 + c / 64 % 64, 128 + c % 64]

/-- UTF-8 bytes of a string (Rust `str::as_bytes`). -/
def strBytes (s : String) : List Nat :=
  (s.data.map (fun c => utf8EncodeCp c.toNat)).flatten

/-- JSON string literal bytes: quote, escaped content, quote. -/
def jsonStringBytes (s : String) : List Nat :=
  34 :: ((strBytes s).map escByte).flatten ++ [34]

mutual

/-- Compact JSON serialization of a `Value`. -/
def serValue : Value → List Nat
  | .null => strBytes "null"
  | .bool true => strBytes "true"
  | .bool false => strBytes "false"
  | .num n => strBytes (toString n)
  | .str s => jsonStringBytes s
  | .arr xs => 91 :: serValueList xs ++ [93]
  | .obj kvs => 123 :: serMemberList kvs ++ [125]

/-- Comma-joined serialization of array elements. -/
def serValueList : List Value → List Nat
  | [] => []
  | [x] => serValue x
  | x :: y :: rest => serValue x ++ 44 :: serValueList (y :: rest)

/-- Comma-joined serialization of object members. -/
def serMemberList : List (String × Value) → List Nat
  | [] => []
  | [(k, v)] => jsonStringBytes k ++ 58 :: serValue v
  | (k, v) :: m :: rest => jsonStringBytes k ++ 58 :: serValue v ++ 44 :: serMemberList (m :: rest)

end

/-- The bytes `serde_json::to_vec` produces for a `SessionData` value:
the derived `Serialize` writes the struct as an object with fields in
declaration order, `data` first, then `modified`. -/
def sessionDataJson (sd : SessionData) : List Nat :=
  123 :: strBytes "\"data\":" ++ serValue (.obj sd.data) ++ strBytes ",\"modified\":" ++
    (if sd.modified then strBytes "true" else strBytes "false") ++ [125]

/-- The concrete `serde_json::to_vec` codec for `cookieSave`'s `ser`
parameter (it never fails on the embedded `Value` fragment). -/
def serJsonModel : SessionData → Except String (List Nat) :=
  fun sd => .ok (sessionDataJson sd)

/-- The standard base64 alphabet as a predicate on ASCII codes. -/
def isB64Alpha (c : Nat) : Prop :=
  (65 ≤ c ∧ c ≤ 90) ∨ (97 ≤ c ∧ c ≤ 122) ∨ (48 ≤ c ∧ c ≤ 57) ∨ c = 43 ∨ c = 47

instance (c : Nat) : Decidable (isB64Alpha c) := by unfold isB64Alpha; infer_instance

/-- Modelled from the spec: the URL-safe base64 alphabet
(`A-Z a-z 0-9 - _`) together with the separator `.` and the padding `=`
— the character set the spec asserts every token stays inside. -/
def specUrlSafeTokenChar (c : Nat) : Prop :=
  (65 ≤ c ∧ c ≤ 90) ∨ (97 ≤ c ∧ c ≤ 122) ∨ (48 ≤ c ∧ c ≤ 57) ∨ c = 45 ∨ c = 95 ∨ c = 46 ∨ c = 61

instance (c : Nat) : Decidable (specUrlSafeTokenChar c) := by
  unfold specUrlSafeTokenChar; infer_instance

/-! Concrete instances used by witnesses and counterexamples. -/

/-- Concrete MAC function whose tag at `base64Encode [97]` differs from
its tag at every other message: a stand-in satisfying the tag-bytes and
tag-distinctness hypotheses of the tamper-detection theorem. -/
def c2Mac : List Nat → List Nat → List Nat :=
  fun _ m => if m = [89, 81, 61, 61] then 1 :: List.replicate 31 0 else List.replicate 32 0

/-- Concrete stand-in MAC function for witnesses (the theorems are
universally quantified over the MAC). -/
def wMac : List Nat → List Nat → List Nat := fun _ _ => [5]

/-- A session whose serde_json serialization base64-encodes to text
containing `/` (byte 47). -/
def c3Data : SessionData := ⟨[("a", Value.str "?")], false⟩

/-- Failing `serde_json::to_value` serializer (as e.g. a `f64::NAN` value
produces): always errors. -/
def failingToValue : Unit → Option Value := fun _ => none


/-! Library lemmas about the embedded primitives. -/

theorem b64Char_alpha (n : Nat) : isB64Alpha (b64Char n) := by
  unfold b64Char isB64Alpha; split <;> try omega
  split <;> try omega
  split <;> try omega
  split <;> omega

theorem b64Char_ne_61 (n : Nat) : b64Char n ≠ 61 := by
  have := b64Char_alpha n; unfold isB64Alpha at this; omega

theorem b64Val_b64Char : ∀ n < 64, b64Val (b64Char n) = some n := by decide

theorem base64Encode_alpha : ∀ (bs : List Nat), ∀ b ∈ base64Encode bs, isB64Alpha b ∨ b = 61 := by
  intro bs
  induction bs using base64Encode.induct with
  | case1 => intro b hb; simp [base64Encode] at hb
  | case2 b0 =>
      intro b hb; simp [base64Encode] at hb
      rcases hb with rfl | rfl | rfl <;>
        first | exact Or.inr rfl | exact Or.inl (b64Char_alpha _)
  | case3 b0 b1 =>
      intro b hb; simp [base64Encode] at hb
      rcases hb with rfl | rfl | rfl | rfl <;>
        first | exact Or.inr rfl | exact Or.inl (b64Char_alpha _)
  | case4 b0 b1 b2 rest ih =>
      intro b hb; simp [base64Encode] at hb
      rcases hb with rfl | rfl | rfl | rfl | h <;>
        first | exact Or.inl (b64Char_alpha _) | exact ih b h

theorem base64Encode_no_dot (bs : List Nat) : 46 ∉ base64Encode bs := by
  intro h
  rcases base64Encode_alpha bs 46 h with h' | h'
  · unfold isB64Alpha at h'; omega
  · omega

theorem base64_decode_encode : ∀ (bs : List Nat), (∀ b ∈ bs, b < 256) →
    base64Decode (base64Encode bs) = some bs := by
  intro bs
  induction bs using base64Encode.induct with
  | case1 => intro _; rfl
  | case2 b0 =>
      intro hb
      have h0 : b0 < 256 := hb b0 (by simp)
      simp only [base64Encode, base64Decode]
      rw [if_pos (by simp)]
      rw [b64Val_b64Char _ (by omega), b64Val_b64Char _ (by omega)]
      simp only []
      rw [if_pos (by omega)]
      simp only [Option.some.injEq, List.cons.injEq, and_true]
      omega
  | case3 b0 b1 =>
      intro hb
      have h0 : b0 < 256 := hb b0 (by simp)
      have h1 : b1 < 256 := hb b1 (by simp)
      simp only [base64Encode, base64Decode]
      rw [if_neg (by simp [b64Char_ne_61]), if_pos (by simp)]
      rw [b64Val_b64Char _ (by omega), b64Val_b64Char _ (by omega), b64Val_b64Char _ (by omega)]
      simp only []
      rw [if_pos (by omega)]
      simp only [Option.some.injEq, List.cons.injEq, and_true]
      constructor <;> omega
  | case4 b0 b1 b2 rest ih =>
      intro hb
      have h0 : b0 < 256 := hb b0 (by simp)
      have h1 : b1 < 256 := hb b1 (by simp)
      have h2 : b2 < 256 := hb b2 (by simp)
      have hrest : ∀ b ∈ rest, b < 256 := fun b h => hb b (by simp [h])
      simp only [base64Encode, base64Decode]
      rw [if_neg (by simp [b64Char_ne_61]), if_neg (by simp [b64Char_ne_61])]
      rw [b64Val_b64Char _ (by omega), b64Val_b64Char _ (by omega),
          b64Val_b64Char _ (by omega), b64Val_b64Char _ (by omega), ih hrest]
      simp only [Option.some.injEq, List.cons.injEq, and_true]
      refine ⟨?_, ?_, ?_⟩ <;> omega

theorem base64Encode_inj {a b : List Nat} (ha : ∀ x ∈ a, x < 256) (hb : ∀ x ∈ b, x < 256)
    (h : base64Encode a = base64Encode b) : a = b := by
  have := base64_decode_encode a ha
  rw [h, base64_decode_encode b hb] at this
  exact (Option.some.injEq _ _ ▸ this).symm

theorem splitOnDot_ne_nil (l : List Nat) : splitOnDot l ≠ [] := by
  induction l with
  | nil => simp [splitOnDot]
  | cons b rest ih =>
      unfold splitOnDot
      split
      · simp
      · cases h : splitOnDot rest with
        | nil => exact absurd h ih
        | cons p ps => simp

theorem splitOnDot_no_dot {l : List Nat} (h : 46 ∉ l) : splitOnDot l = [l] := by
  induction l with
  | nil => rfl
  | cons b rest ih =>
      have hb : b ≠ 46 := fun hb => h (hb ▸ List.mem_cons_self b rest)
      have hrest : 46 ∉ rest := fun hr => h (List.mem_cons_of_mem b hr)
      unfold splitOnDot
      rw [if_neg hb, ih hrest]

theorem splitOnDot_append_dot {a : List Nat} (b : List Nat) (h : 46 ∉ a) :
    splitOnDot (a ++ 46 :: b) = a :: splitOnDot b := by
  induction a with
  | nil => simp [splitOnDot]
  | cons x rest ih =>
      have hx : x ≠ 46 := fun hx => h (hx ▸ List.mem_cons_self x rest)
      have hrest : 46 ∉ rest := fun hr => h (List.mem_cons_of_mem x hr)
      simp only [List.cons_append]
      conv_lhs => rw [splitOnDot]
      rw [if_neg hx, ih hrest]

theorem memAssocLookup_insert (k : List Nat) (v : SessionData)
    (l : List (List Nat × SessionData)) :
    memAssocLookup k (memAssocInsert k v l) = some v := by
  induction l with
  | nil => simp [memAssocInsert, memAssocLookup]
  | cons kv rest ih =>
      obtain ⟨k', v'⟩ := kv
      unfold memAssocInsert
      split
      · simp [memAssocLookup]
      · unfold memAssocLookup
        rw [if_neg (by assumption), ih]

/-! Claim theorems. -/
/-- C6: the stateless store's `save` is a deterministic function of the
`SessionData` and the secret key alone; the `existing_id` argument
(including `None`) is ignored, so two calls with equal data and key give
byte-identical tokens. -/
theorem c6_save_ignores_id (mac : List Nat → List Nat → List Nat) (key : List Nat)
    (ser : SessionData → Except String (List Nat)) (id1 id2 : Option (List Nat))
    (data : SessionData) :
    cookieSave mac key ser id1 data = cookieSave mac key ser id2 data := rfl

/-- C7 counterexample: `set` with a failing serializer leaves
`modified = false` on a fresh container, so `set` does not raise
`modified` unconditionally. -/
theorem c7_counterexample :
    (SessionData.new.set failingToValue "k" ()).modified = false := rfl

/-- C7 (amended): `remove` and `clear` set `modified = true`
unconditionally; `set` sets it whenever serialization succeeds (on a
failed serialization the call is a complete no-op, leaving `modified`
unchanged); and no operation ever resets `modified` to `false`. -/
theorem c7_amended {T : Type} (sd : SessionData) (toValue : T → Option Value)
    (key : String) (value : T) :
    (sd.remove key).modified = true ∧
    sd.clear.modified = true ∧
    (∀ v, toValue value = some v → (sd.set toValue key value).modified = true) ∧
    (sd.modified = true → (sd.set toValue key value).modified = true) := by
  refine ⟨rfl, rfl, ?_, ?_⟩
  · intro v hv
    unfold SessionData.set
    rw [hv]
  · intro hm
    unfold SessionData.set
    cases h : toValue value <;> simp [hm]

theorem c7_witness :
    (SessionData.new.set (fun _ : Unit => some Value.null) "k" ()).modified = true ∧
    (SessionData.new.clear.set (fun _ : Unit => some Value.null) "k" ()).modified = true :=
  ⟨(c7_amended SessionData.new (fun _ : Unit => some Value.null) "k" ()).2.2.1 Value.null rfl,
   (c7_amended SessionData.new.clear (fun _ : Unit => some Value.null) "k" ()).2.2.2 rfl⟩

/-- C8: `get::<T>(key)` returns `none` when the key is absent or the
stored value does not decode as `T`, and `some` of the decoded value
otherwise — it never errors. -/
theorem c8_get_soft_fail {T : Type} (sd : SessionData) (fromValue : Value → Option T)
    (key : String) :
    (assocLookup key sd.data = none → sd.get fromValue key = none) ∧
    (∀ v, assocLookup key sd.data = some v → fromValue v = none →
      sd.get fromValue key = none) ∧
    (∀ v t, assocLookup key sd.data = some v → fromValue v = some t →
      sd.get fromValue key = some t) := by
  refine ⟨?_, ?_, ?_⟩
  · intro h; unfold SessionData.get; rw [h]; rfl
  · intro v h hv; unfold SessionData.get; rw [h]; exact hv
  · intro v t h hv; unfold SessionData.get; rw [h]; exact hv

theorem c8_witness :
    (SessionData.mk [("a", Value.null)] false).get (fun _ => some (0 : Nat)) "b" = none ∧
    (SessionData.mk [("a", Value.null)] false).get (fun _ => (none : Option Nat)) "a" = none ∧
    (SessionData.mk [("a", Value.null)] false).get (fun _ => some (7 : Nat)) "a" = some 7 :=
  ⟨(c8_get_soft_fail _ _ _).1 rfl,
   (c8_get_soft_fail _ _ _).2.1 Value.null rfl rfl,
   (c8_get_soft_fail _ _ _).2.2 Value.null 7 rfl rfl⟩

/-- C9: on the in-memory store, `save(Some(id), data2)` after
`save(None, data1)` returned `id` overwrites the entry, so `load(id)`
returns `data2` and (when the two values differ) not `data1`. -/
theorem c9_stateful_overwrite (store : List (List Nat × SessionData))
    (genId genId2 : List Nat) (d1 d2 : SessionData) :
    memLoad (memSave (memSave store none genId d1).1
        (some (memSave store none genId d1).2) genId2 d2).1
        (memSave store none genId d1).2 = .ok (some d2) ∧
    (d1 ≠ d2 →
      memLoad (memSave (memSave store none genId d1).1
          (some (memSave store none genId d1).2) genId2 d2).1
          (memSave store none genId d1).2 ≠ .ok (some d1)) := by
  have h1 : memLoad (memSave (memSave store none genId d1).1
      (some (memSave store none genId d1).2) genId2 d2).1
      (memSave store none genId d1).2 = .ok (some d2) := by
    unfold memSave memLoad
    rw [memAssocLookup_insert]
  refine ⟨h1, fun hne hcontra => hne ?_⟩
  rw [h1] at hcontra
  simp only [Except.ok.injEq, Option.some.injEq] at hcontra
  exact hcontra.symm

theorem c9_witness :
    memLoad (memSave (memSave [] none [1] SessionData.new).1
        (some (memSave [] none [1] SessionData.new).2) [2] (SessionData.mk [] true)).1
        (memSave [] none [1] SessionData.new).2 = .ok (some (SessionData.mk [] true)) ∧
    memLoad (memSave (memSave [] none [1] SessionData.new).1
        (some (memSave [] none [1] SessionData.new).2) [2] (SessionData.mk [] true)).1
        (memSave [] none [1] SessionData.new).2 ≠ .ok (some SessionData.new) :=
  ⟨(c9_stateful_overwrite [] [1] [2] SessionData.new (SessionData.mk [] true)).1,
   (c9_stateful_overwrite [] [1] [2] SessionData.new (SessionData.mk [] true)).2
     (by simp [SessionData.new])⟩

/-- C10: the stateless store's `load` never returns `Ok(None)`: every
result is an error or `Ok(Some(data))`. -/
theorem c10_never_ok_none (mac : List Nat → List Nat → List Nat) (key : List Nat)
    (parse : List Nat → Except String SessionData) (token : List Nat) :
    cookieLoad mac key parse token ≠ .ok none := by
  unfold cookieLoad
  split
  · split
    · split
      · simp
      · split
        · simp
        · simp
    · simp
  · simp

/-- Splitting into any number of parts other than two makes `load`
return `Invalid`. -/
theorem cookieLoad_parts_ne_two (mac : List Nat → List Nat → List Nat) (key : List Nat)
    (parse : List Nat → Except String SessionData) (id : List Nat)
    (h : (splitOnDot id).length ≠ 2) :
    cookieLoad mac key parse id = .error .Invalid := by
  unfold cookieLoad
  split
  next d s heq => exact absurd (by rw [heq]; rfl) h
  next => rfl

/-- With exactly two parts, a signature mismatch makes `load` return
`Invalid`. -/
theorem cookieLoad_bad_sig (mac : List Nat → List Nat → List Nat) (key : List Nat)
    (parse : List Nat → Except String SessionData) (id : List Nat) (a b : List Nat)
    (hsp : splitOnDot id = [a, b]) (hv : base64Encode (mac key a) ≠ b) :
    cookieLoad mac key parse id = .error .Invalid := by
  unfold cookieLoad
  split
  next d s heq =>
    rw [hsp] at heq
    simp only [List.cons.injEq, and_true] at heq
    obtain ⟨rfl, rfl, -⟩ := heq
    rw [if_neg]
    simp only [cookieVerify, sign, beq_iff_eq]
    exact hv
  next hne =>
    exact absurd hsp (by intro hcontra; exact hne _ _ hcontra)

/-- C1: loading the token `save(None, data)` produced (same secret key)
succeeds and returns the original `SessionData`, for any serializable
data (the `serde_json` round-trip on the document is the hypothesis
`hparse`). -/
theorem c1_roundtrip (mac : List Nat → List Nat → List Nat) (key : List Nat)
    (ser : SessionData → Except String (List Nat))
    (parse : List Nat → Except String SessionData)
    (data : SessionData) (json token : List Nat)
    (hser : ser data = .ok json)
    (hjson : ∀ b ∈ json, b < 256)
    (hparse : parse json = .ok data)
    (hsave : cookieSave mac key ser none data = .ok token) :
    cookieLoad mac key parse token = .ok (some data) := by
  unfold cookieSave at hsave
  rw [hser] at hsave
  simp only [Except.ok.injEq] at hsave
  subst hsave
  unfold cookieLoad
  simp only [sign]
  rw [splitOnDot_append_dot _ (base64Encode_no_dot json),
      splitOnDot_no_dot (base64Encode_no_dot _)]
  simp only []
  rw [if_pos (by simp [cookieVerify, sign])]
  rw [base64_decode_encode json hjson]
  simp only []
  rw [hparse]



theorem c1_witness :
    cookieLoad wMac [] (fun bs => if bs = [97] then .ok SessionData.new else .error "bad")
      (base64Encode [97] ++ 46 :: base64Encode [5]) = .ok (some SessionData.new) :=
  c1_roundtrip wMac [] (fun _ => .ok [97])
    (fun bs => if bs = [97] then .ok SessionData.new else .error "bad")
    SessionData.new [97] _ rfl (by decide) rfl rfl

/-- C5: the MAC inside a saved token is computed over the bytes of the
base64-encoded data segment (the base64 text itself), and `load`
verifies by recomputing the MAC over the undecoded data-segment bytes:
any two-part token that gets past the signature check has
`sigPart = base64(mac(key, dataPart))`. -/
theorem c5_mac_over_base64_text (mac : List Nat → List Nat → List Nat) (key : List Nat)
    (ser : SessionData → Except String (List Nat))
    (parse : List Nat → Except String SessionData)
    (data : SessionData) (json : List Nat)
    (hser : ser data = .ok json) :
    cookieSave mac key ser none data
        = .ok (base64Encode json ++ 46 :: base64Encode (mac key (base64Encode json))) ∧
    (∀ d s, 46 ∉ d → 46 ∉ s →
      cookieLoad mac key parse (d ++ 46 :: s) ≠ .error SessionError.Invalid →
      base64Encode (mac key d) = s) := by
  constructor
  · unfold cookieSave
    rw [hser]
    rfl
  · intro d s hd hs hload
    by_contra hne
    exact hload (cookieLoad_bad_sig mac key parse _ d s
      (by rw [splitOnDot_append_dot _ hd, splitOnDot_no_dot hs]) hne)

theorem c5_witness :
    cookieSave wMac [] (fun _ => Except.ok [97]) none SessionData.new
        = .ok (base64Encode [97] ++ 46 :: base64Encode (wMac [] (base64Encode [97]))) ∧
    base64Encode (wMac [] [97]) = base64Encode [5] :=
  ⟨(c5_mac_over_base64_text wMac [] (fun _ => Except.ok [97]) (fun _ => Except.error "x")
      SessionData.new [97] rfl).1,
   (c5_mac_over_base64_text wMac [] (fun _ => Except.ok [97]) (fun _ => Except.error "x")
      SessionData.new [97] rfl).2 [97] (base64Encode [5]) (by decide) (by decide)
      (by rw [show cookieLoad wMac [] (fun _ => Except.error "x") ([97] ++ 46 :: base64Encode [5])
            = Except.error (SessionError.Serialization base64DecodeErr) from rfl]
          simp)⟩

/-- C4 counterexample: the token `"." ++ base64(mac(key, ""))` has an
empty data part, yet `load` does not reject it as `Invalid`: the split
check passes (two parts, emptiness is not tested), the signature over
the empty data part verifies, and the failure only arises later at the
deserialization step, surfacing as `Serialization`, not `Invalid`. -/
theorem c4_counterexample :
    cookieLoad wMac [] (fun _ => Except.error "EOF while parsing a value at line 1 column 0")
      (46 :: base64Encode [5])
      = .error (.Serialization "EOF while parsing a value at line 1 column 0") ∧
    cookieLoad wMac [] (fun _ => Except.error "EOF while parsing a value at line 1 column 0")
      (46 :: base64Encode [5]) ≠ .error SessionError.Invalid := by
  constructor
  · rfl
  · rw [show cookieLoad wMac [] (fun _ => Except.error "EOF while parsing a value at line 1 column 0")
        (46 :: base64Encode [5])
        = .error (.Serialization "EOF while parsing a value at line 1 column 0") from rfl]
    simp

/-- C4 (amended): `load` splits on every `.` and returns `Invalid`
whenever the split does not yield exactly two (possibly empty) parts —
so extra `.` characters anywhere are rejected before any signature or
decode step — and with exactly two parts it returns `Invalid` whenever
signature verification fails; empty parts are not specially rejected. -/
theorem c4_amended (mac : List Nat → List Nat → List Nat) (key : List Nat)
    (parse : List Nat → Except String SessionData) (token : List Nat) :
    ((splitOnDot token).length ≠ 2 → cookieLoad mac key parse token = .error .Invalid) ∧
    (∀ a b, splitOnDot token = [a, b] → base64Encode (mac key a) ≠ b →
      cookieLoad mac key parse token = .error .Invalid) :=
  ⟨cookieLoad_parts_ne_two mac key parse token,
   fun a b hsp hv => cookieLoad_bad_sig mac key parse token a b hsp hv⟩

theorem c4_witness :
    cookieLoad wMac [] (fun _ => Except.error "x") [97] = .error .Invalid ∧
    cookieLoad wMac [] (fun _ => Except.error "x") [97, 46, 98] = .error .Invalid :=
  ⟨(c4_amended wMac [] (fun _ => Except.error "x") [97]).1 (by decide),
   (c4_amended wMac [] (fun _ => Except.error "x") [97, 46, 98]).2 [97] [98]
     (by decide) (by decide)⟩

/-- C3 counterexample: for the session `{"a": "?"}`, the saved token
contains byte 47 (`/`), a character of the standard base64 alphabet
that lies outside the URL-safe alphabet plus `.` and `=`. -/
theorem c3_counterexample :
    cookieSave wMac [] serJsonModel none c3Data
        = .ok (base64Encode (sessionDataJson c3Data) ++ 46 ::
            base64Encode (wMac [] (base64Encode (sessionDataJson c3Data)))) ∧
    47 ∈ base64Encode (sessionDataJson c3Data) ++ 46 ::
            base64Encode (wMac [] (base64Encode (sessionDataJson c3Data))) ∧
    ¬ specUrlSafeTokenChar 47 :=
  ⟨rfl, by decide, by decide⟩

/-- C3 (amended): the data segment of a saved token is the serialized
JSON bytes encoded with the STANDARD base64 alphabet with padding (and
the signature segment likewise), so every token byte is in the standard
alphabet plus `.` and `=`. -/
theorem c3_amended (mac : List Nat → List Nat → List Nat) (key : List Nat)
    (ser : SessionData → Except String (List Nat))
    (data : SessionData) (json token : List Nat)
    (hser : ser data = .ok json)
    (hsave : cookieSave mac key ser none data = .ok token) :
    token = base64Encode json ++ 46 :: base64Encode (mac key (base64Encode json)) ∧
    ∀ b ∈ token, isB64Alpha b ∨ b = 46 ∨ b = 61 := by
  unfold cookieSave at hsave
  rw [hser] at hsave
  simp only [sign, Except.ok.injEq] at hsave
  subst hsave
  refine ⟨rfl, ?_⟩
  intro b hb
  rw [List.mem_append] at hb
  rcases hb with hb | hb
  · rcases base64Encode_alpha _ b hb with h | h
    · exact Or.inl h
    · exact Or.inr (Or.inr h)
  · rcases List.mem_cons.mp hb with rfl | hb
    · exact Or.inr (Or.inl rfl)
    · rcases base64Encode_alpha _ b hb with h | h
      · exact Or.inl h
      · exact Or.inr (Or.inr h)

theorem c3_witness :
    cookieSave wMac [] serJsonModel none c3Data
        = .ok (base64Encode (sessionDataJson c3Data) ++ 46 ::
            base64Encode (wMac [] (base64Encode (sessionDataJson c3Data)))) ∧
    (isB64Alpha 47 ∨ 47 = 46 ∨ 47 = 61) :=
  ⟨(c3_amended wMac [] serJsonModel c3Data (sessionDataJson c3Data) _ rfl rfl).1.symm ▸ rfl,
   (c3_amended wMac [] serJsonModel c3Data (sessionDataJson c3Data)
      (base64Encode (sessionDataJson c3Data) ++ 46 ::
        base64Encode (wMac [] (base64Encode (sessionDataJson c3Data)))) rfl rfl).2 47 (by decide)⟩

/-- Two lists differing in one position differ. -/
theorem append_cons_ne_of_ne {u v : List Nat} {c x : Nat} (h : c ≠ x) :
    u ++ c :: v ≠ u ++ x :: v := by
  intro hcontra
  have h2 := List.append_cancel_left hcontra
  simp only [List.cons.injEq] at h2
  exact h h2.1

/-- C2: for a token produced by `save`, flipping any single byte of the
data segment or of the signature segment, truncating the token anywhere,
or removing the `.` separator makes `load` return `Invalid`, under the
claim's assumption that HMAC-SHA256 gives the distinct inputs involved
distinct tags (`hmacDist`; `hmacBytes` says tags are byte values). -/
theorem c2_tamper_detection (mac : List Nat → List Nat → List Nat) (key : List Nat)
    (ser : SessionData → Except String (List Nat))
    (parse : List Nat → Except String SessionData)
    (data : SessionData) (json token : List Nat)
    (hser : ser data = .ok json)
    (htok : token = base64Encode json ++ 46 :: base64Encode (mac key (base64Encode json)))
    (hmacBytes : ∀ m b, b ∈ mac key m → b < 256)
    (hmacDist : ∀ m, m ≠ base64Encode json → mac key m ≠ mac key (base64Encode json)) :
    cookieSave mac key ser none data = .ok token ∧
    (∀ u x v c, base64Encode json = u ++ x :: v → c ≠ x →
      cookieLoad mac key parse
        ((u ++ c :: v) ++ 46 :: base64Encode (mac key (base64Encode json)))
        = .error SessionError.Invalid) ∧
    (∀ u x v c, base64Encode (mac key (base64Encode json)) = u ++ x :: v → c ≠ x →
      cookieLoad mac key parse (base64Encode json ++ 46 :: (u ++ c :: v))
        = .error SessionError.Invalid) ∧
    (∀ n, n < token.length →
      cookieLoad mac key parse (token.take n) = .error SessionError.Invalid) ∧
    cookieLoad mac key parse
      (base64Encode json ++ base64Encode (mac key (base64Encode json)))
      = .error SessionError.Invalid := by
  have hDnd : 46 ∉ base64Encode json := base64Encode_no_dot json
  have hSnd : 46 ∉ base64Encode (mac key (base64Encode json)) := base64Encode_no_dot _
  refine ⟨?_, ?_, ?_, ?_, ?_⟩
  · unfold cookieSave
    rw [hser, htok]
    rfl
  · -- single-byte modification of the data segment
    intro u x v c hdec hcx
    have hu : 46 ∉ u := fun hm => hDnd (hdec ▸ List.mem_append_left _ hm)
    have hv46 : 46 ∉ v := fun hm =>
      hDnd (hdec ▸ List.mem_append_right _ (List.mem_cons_of_mem _ hm))
    by_cases hc : c = 46
    · subst hc
      apply cookieLoad_parts_ne_two
      rw [List.append_assoc, List.cons_append]
      rw [splitOnDot_append_dot _ hu, splitOnDot_append_dot _ hv46,
          splitOnDot_no_dot hSnd]
      simp
    · apply cookieLoad_bad_sig mac key parse _ (u ++ c :: v)
          (base64Encode (mac key (base64Encode json)))
      · rw [splitOnDot_append_dot, splitOnDot_no_dot hSnd]
        intro hm
        rcases List.mem_append.mp hm with hm | hm
        · exact hu hm
        · rcases List.mem_cons.mp hm with rfl | hm
          · exact hc rfl
          · exact hv46 hm
      · intro hEq
        have hmacEq := base64Encode_inj
          (fun b hb => hmacBytes _ b hb) (fun b hb => hmacBytes _ b hb) hEq
        exact hmacDist (u ++ c :: v) (hdec ▸ append_cons_ne_of_ne hcx) hmacEq
  · -- single-byte modification of the signature segment
    intro u x v c hdec hcx
    have hu : 46 ∉ u := fun hm => hSnd (hdec ▸ List.mem_append_left _ hm)
    have hv46 : 46 ∉ v := fun hm =>
      hSnd (hdec ▸ List.mem_append_right _ (List.mem_cons_of_mem _ hm))
    by_cases hc : c = 46
    · subst hc
      apply cookieLoad_parts_ne_two
      rw [splitOnDot_append_dot _ hDnd, splitOnDot_append_dot _ hu,
          splitOnDot_no_dot hv46]
      simp
    · apply cookieLoad_bad_sig mac key parse _ (base64Encode json) (u ++ c :: v)
      · rw [splitOnDot_append_dot _ hDnd, splitOnDot_no_dot]
        intro hm
        rcases List.mem_append.mp hm with hm | hm
        · exact hu hm
        · rcases List.mem_cons.mp hm with rfl | hm
          · exact hc rfl
          · exact hv46 hm
      · rw [hdec]
        exact (append_cons_ne_of_ne hcx).symm
  · -- truncation
    intro n hn
    rw [htok] at hn ⊢
    by_cases hle : n ≤ (base64Encode json).length
    · apply cookieLoad_parts_ne_two
      rw [List.take_append_eq_append_take, Nat.sub_eq_zero_of_le hle]
      rw [List.take_zero, List.append_nil]
      rw [splitOnDot_no_dot (fun hm => hDnd (List.take_subset _ _ hm))]
      simp
    · have hgt : (base64Encode json).length < n := by omega
      obtain ⟨m, hm⟩ : ∃ m, n - (base64Encode json).length = m + 1 :=
        ⟨n - (base64Encode json).length - 1, by omega⟩
      have hmlt : m < (base64Encode (mac key (base64Encode json))).length := by
        rw [List.length_append, List.length_cons] at hn
        omega
      rw [List.take_append_eq_append_take, List.take_of_length_le (by omega), hm,
          List.take_succ_cons]
      apply cookieLoad_bad_sig mac key parse _ (base64Encode json)
          ((base64Encode (mac key (base64Encode json))).take m)
      · rw [splitOnDot_append_dot _ hDnd,
            splitOnDot_no_dot (fun hmem => hSnd (List.take_subset _ _ hmem))]
      · intro hEq
        have := congrArg List.length hEq
        rw [List.length_take] at this
        omega
  · -- separator removal
    apply cookieLoad_parts_ne_two
    rw [splitOnDot_no_dot]
    · simp
    · intro hm
      rcases List.mem_append.mp hm with hm | hm
      · exact hDnd hm
      · exact hSnd hm


/-- The stand-in MAC produces byte values. -/
theorem c2Mac_bytes : ∀ m b, b ∈ c2Mac [] m → b < 256 := by
  intro m b hb
  unfold c2Mac at hb
  split at hb
  · rcases List.mem_cons.mp hb with rfl | hb
    · omega
    · rw [List.eq_of_mem_replicate hb]; omega
  · rw [List.eq_of_mem_replicate hb]; omega

/-- The stand-in MAC gives `base64Encode [97]` a tag distinct from every
other message's tag. -/
theorem c2Mac_dist : ∀ m, m ≠ base64Encode [97] → c2Mac [] m ≠ c2Mac [] (base64Encode [97]) := by
  intro m hm
  have h97 : base64Encode [97] = [89, 81, 61, 61] := by decide
  rw [h97] at hm ⊢
  unfold c2Mac
  rw [if_neg hm, if_pos rfl]
  decide

theorem c2_witness :
    cookieLoad c2Mac [] (fun _ => Except.error "x")
      (([] ++ 90 :: [81, 61, 61]) ++ 46 :: base64Encode (c2Mac [] (base64Encode [97])))
      = .error SessionError.Invalid ∧
    cookieLoad c2Mac [] (fun _ => Except.error "x")
      ((base64Encode [97] ++ 46 :: base64Encode (c2Mac [] (base64Encode [97]))).take 3)
      = .error SessionError.Invalid ∧
    cookieLoad c2Mac [] (fun _ => Except.error "x")
      (base64Encode [97] ++ base64Encode (c2Mac [] (base64Encode [97])))
      = .error SessionError.Invalid :=
  ⟨(c2_tamper_detection c2Mac [] (fun _ => Except.ok [97]) (fun _ => Except.error "x")
      SessionData.new [97] _ rfl rfl c2Mac_bytes c2Mac_dist).2.1
      [] 89 [81, 61, 61] 90 (by decide) (by decide),
   (c2_tamper_detection c2Mac [] (fun _ => Except.ok [97]) (fun _ => Except.error "x")
      SessionData.new [97] _ rfl rfl c2Mac_bytes c2Mac_dist).2.2.2.1 3 (by decide),
   (c2_tamper_detection c2Mac [] (fun _ => Except.ok [97]) (fun _ => Except.error "x")
      SessionData.new [97] _ rfl rfl c2Mac_bytes c2Mac_dist).2.2.2.2⟩
